import Mathlib

/-!
Formal model of the boids simulation core of this repository
(src/rust/src/boids.rs, src/rust/src/gameworld.rs).

The Rust code computes with 32-bit floats; the model uses exact real
arithmetic.  Each legion ECS system becomes a function from the agent
list to the agent list; the schedule built by add_boid_systems becomes a
list of such functions folded in order by tick.  The Godot Sprite handle
of every boid is modelled by the two fields spritePos and spriteRot.
-/

namespace Boids

open Classical

noncomputable section

/-- Model of the 2D vector type (euclid Vector2 over f32, here over the reals). -/
@[ext]
structure Vector2 where
  x : ℝ
  y : ℝ

namespace Vector2

/-- Vector2::zero(). -/
def zero : Vector2 := ⟨0, 0⟩

instance : Zero Vector2 := ⟨zero⟩
instance : Add Vector2 := ⟨fun a b => ⟨a.x + b.x, a.y + b.y⟩⟩
instance : Neg Vector2 := ⟨fun a => ⟨-a.x, -a.y⟩⟩
instance : Sub Vector2 := ⟨fun a b => ⟨a.x - b.x, a.y - b.y⟩⟩
instance : SMul ℝ Vector2 := ⟨fun c a => ⟨c * a.x, c * a.y⟩⟩

@[simp] theorem zero_x : (0 : Vector2).x = 0 := rfl

@[simp] theorem zero_y : (0 : Vector2).y = 0 := rfl

@[simp] theorem zero_def : (zero : Vector2) = 0 := rfl

@[simp] theorem add_x (a b : Vector2) : (a + b).x = a.x + b.x := rfl

@[simp] theorem add_y (a b : Vector2) : (a + b).y = a.y + b.y := rfl

@[simp] theorem neg_x (a : Vector2) : (-a).x = -a.x := rfl

@[simp] theorem neg_y (a : Vector2) : (-a).y = -a.y := rfl

@[simp] theorem sub_x (a b : Vector2) : (a - b).x = a.x - b.x := rfl

@[simp] theorem sub_y (a b : Vector2) : (a - b).y = a.y - b.y := rfl

@[simp] theorem smul_x (c : ℝ) (a : Vector2) : (c • a).x = c * a.x := rfl

@[simp] theorem smul_y (c : ℝ) (a : Vector2) : (c • a).y = c * a.y := rfl

@[simp] theorem vadd_zero (a : Vector2) : a + 0 = a := by ext <;> simp

@[simp] theorem vzero_add (a : Vector2) : 0 + a = a := by ext <;> simp

@[simp] theorem vsub_self (a : Vector2) : a - a = 0 := by ext <;> simp

@[simp] theorem vsmul_zero (c : ℝ) : c • (0 : Vector2) = 0 := by ext <;> simp

theorem vsub_eq_zero_iff (a b : Vector2) : a - b = 0 ↔ a = b := by
  constructor
  · intro h
    have hx := congrArg Vector2.x h
    have hy := congrArg Vector2.y h
    simp [sub_eq_zero] at hx hy
    ext <;> assumption
  · intro h; simp [h]

/-- Componentwise scalar division, modelling force.cohesion /= count as f32. -/
def divScalar (v : Vector2) (c : ℝ) : Vector2 := ⟨v.x / c, v.y / c⟩

@[simp] theorem divScalar_x (v : Vector2) (c : ℝ) : (v.divScalar c).x = v.x / c := rfl

@[simp] theorem divScalar_y (v : Vector2) (c : ℝ) : (v.divScalar c).y = v.y / c := rfl

@[simp] theorem divScalar_one (v : Vector2) : v.divScalar 1 = v := by ext <;> simp

theorem divScalar_eq_zero_iff (v : Vector2) (c : ℝ) (hc : c ≠ 0) :
    v.divScalar c = 0 ↔ v = 0 := by
  constructor
  · intro h
    have hx := congrArg Vector2.x h
    have hy := congrArg Vector2.y h
    simp [div_eq_zero_iff, hc] at hx hy
    ext <;> simp [hx, hy]
  · intro h; subst h; ext <;> simp

/-- Model of euclid Vector2::square_length: self.x * self.x + self.y * self.y. -/
def squareLength (v : Vector2) : ℝ := v.x * v.x + v.y * v.y

/-- Model of euclid Vector2::length: self.square_length().sqrt(). -/
def length (v : Vector2) : ℝ := Real.sqrt v.squareLength

theorem squareLength_nonneg (v : Vector2) : 0 ≤ v.squareLength := by
  have hx := mul_self_nonneg v.x
  have hy := mul_self_nonneg v.y
  simpa [squareLength] using add_nonneg hx hy

theorem squareLength_eq_zero_iff (v : Vector2) : v.squareLength = 0 ↔ v = 0 := by
  constructor
  · intro h
    simp only [squareLength] at h
    have hx := mul_self_nonneg v.x
    have hy := mul_self_nonneg v.y
    have h1 : v.x * v.x = 0 := by nlinarith
    have h2 : v.y * v.y = 0 := by nlinarith
    ext
    · simpa using mul_self_eq_zero.mp h1
    · simpa using mul_self_eq_zero.mp h2
  · intro h; subst h; simp [squareLength]

@[simp] theorem length_vzero : (0 : Vector2).length = 0 := by
  simp [length, squareLength]

theorem length_nonneg (v : Vector2) : 0 ≤ v.length := Real.sqrt_nonneg _

/-- Comparison of a length with a positive bound reduces to squared lengths;
this is how the strict neighbour-radius tests are evaluated on concrete inputs. -/
theorem length_lt_iff (v : Vector2) (r : ℝ) (hr : 0 < r) :
    v.length < r ↔ v.squareLength < r * r := by
  rw [length, Real.sqrt_lt' hr, sq]

theorem length_le_iff (v : Vector2) (r : ℝ) (hr : 0 ≤ r) :
    v.length ≤ r ↔ v.squareLength ≤ r * r := by
  rw [length, Real.sqrt_le_left hr, sq]

theorem length_smul (c : ℝ) (v : Vector2) : (c • v).length = |c| * v.length := by
  have h : (c • v).squareLength = c ^ 2 * v.squareLength := by
    simp [squareLength]; ring
  rw [length, h, Real.sqrt_mul (sq_nonneg c), Real.sqrt_sq_eq_abs, length]

theorem length_sub_comm (a b : Vector2) : (a - b).length = (b - a).length := by
  have h : (a - b).squareLength = (b - a).squareLength := by
    simp [squareLength]; ring
  rw [length, h, length]

/-- Model of euclid Vector2::with_max_length:
if square_length > max * max, scale by max / length, else unchanged. -/
def withMaxLength (v : Vector2) (maxLength : ℝ) : Vector2 :=
  if maxLength * maxLength < v.squareLength then (maxLength / v.length) • v else v

theorem length_withMaxLength_le (v : Vector2) (m : ℝ) (hm : 0 ≤ m) :
    (v.withMaxLength m).length ≤ m := by
  rw [withMaxLength]
  split_ifs with h
  · have hsqpos : 0 < v.squareLength := lt_of_le_of_lt (mul_self_nonneg m) h
    have hlenpos : 0 < v.length := by
      rw [length]; exact Real.sqrt_pos.mpr hsqpos
    rw [length_smul]
    have habs : |m / v.length| = m / v.length :=
      abs_of_nonneg (div_nonneg hm hlenpos.le)
    rw [habs, div_mul_cancel₀ m hlenpos.ne']
  · exact (length_le_iff v m hm).mpr (le_of_not_lt h)

theorem withMaxLength_eq_self (v : Vector2) (m : ℝ) (hm : 0 ≤ m)
    (h : v.length ≤ m) : v.withMaxLength m = v := by
  rw [withMaxLength, if_neg (not_lt.mpr ((length_le_iff v m hm).mp h))]

end Vector2

/-- Sum of a list of vectors, used to state what the neighbour scans accumulate. -/
def vsum (l : List Vector2) : Vector2 := l.foldr (fun v acc => v + acc) 0

@[simp] theorem vsum_nil : vsum [] = 0 := rfl

@[simp] theorem vsum_cons (v : Vector2) (l : List Vector2) :
    vsum (v :: l) = v + vsum l := rfl

/-- Per-agent force accumulators (struct Forces in boids.rs). -/
@[ext]
structure Forces where
  cohesion : Vector2
  separation : Vector2
  alignment : Vector2

/-- Forces::zero(). -/
def Forces.zero : Forces := ⟨0, 0, 0⟩

/-- One boid entity: the Pos, Velocity, Acceleration and Forces components,
plus the Godot Sprite handle of the Boid component, modelled by its global
position and global rotation. -/
@[ext]
structure Agent where
  pos : Vector2
  vel : Vector2
  acc : Vector2
  forces : Forces
  spritePos : Vector2
  spriteRot : ℝ

/-- MAX_SPEED constant of boids.rs. -/
def MAX_SPEED : ℝ := 500

/-- Model of a Godot Rect2: an origin corner and a size. -/
structure Rect2 where
  origin : Vector2
  size : Vector2

namespace Rect2

/-- Rect2 min_x accessor. -/
def min_x (r : Rect2) : ℝ := r.origin.x

/-- Rect2 max_x accessor. -/
def max_x (r : Rect2) : ℝ := r.origin.x + r.size.x

/-- Rect2 min_y accessor. -/
def min_y (r : Rect2) : ℝ := r.origin.y

/-- Rect2 max_y accessor. -/
def max_y (r : Rect2) : ℝ := r.origin.y + r.size.y

end Rect2

/-- The Viewport resource of gameworld.rs (a newtype over Rect2). -/
structure Viewport where
  rect : Rect2

/-- The per-tick shared resources of gameworld.rs: Delta, CohesionMul,
SeparationMul, AlignmentMul and the Viewport. -/
structure Resources where
  delta : ℝ
  cohesion_mul : ℝ
  separation_mul : ℝ
  alignment_mul : ℝ
  viewport : Viewport

/-- Body of the cohesion system for one agent: scan the snapshot of all
positions, counting and summing every position strictly within distance 200,
accumulating into the existing cohesion slot; if the count is positive,
divide by it and subtract the agent's own position. -/
def cohesionStep (allPositions : List Vector2) (a : Agent) : Agent :=
  let s := allPositions.foldl
    (fun s otherPos =>
      if (otherPos - a.pos).length < 200 then (s.1 + 1, s.2 + otherPos) else s)
    ((0 : ℕ), a.forces.cohesion)
  if s.1 > 0 then
    { a with forces := { a.forces with cohesion := (s.2.divScalar (s.1 : ℝ)) - a.pos } }
  else a

/-- The cohesion system: snapshot all positions, then update every agent. -/
def cohesion (w : List Agent) : List Agent :=
  w.map (cohesionStep (w.map Agent.pos))

/-- Body of the separation system for one agent: count and sum pos - other
over every position strictly within distance 100, accumulating into the
existing separation slot; if the count is positive, divide by it. -/
def separationStep (allPositions : List Vector2) (a : Agent) : Agent :=
  let s := allPositions.foldl
    (fun s otherPos =>
      if (otherPos - a.pos).length < 100 then (s.1 + 1, s.2 + (a.pos - otherPos)) else s)
    ((0 : ℕ), a.forces.separation)
  if s.1 > 0 then
    { a with forces := { a.forces with separation := s.2.divScalar (s.1 : ℝ) } }
  else a

/-- The separation system. -/
def separation (w : List Agent) : List Agent :=
  w.map (separationStep (w.map Agent.pos))

/-- Body of the alignment system for one agent: over the snapshot of all
position and velocity pairs, count and sum the velocity of every agent whose
position is strictly within distance 100, accumulating into the existing
alignment slot; if the count is positive, divide by it. -/
def alignmentStep (allBoids : List (Vector2 × Vector2)) (a : Agent) : Agent :=
  let s := allBoids.foldl
    (fun s other =>
      if (other.1 - a.pos).length < 100 then (s.1 + 1, s.2 + other.2) else s)
    ((0 : ℕ), a.forces.alignment)
  if s.1 > 0 then
    { a with forces := { a.forces with alignment := s.2.divScalar (s.1 : ℝ) } }
  else a

/-- The alignment system. -/
def alignment (w : List Agent) : List Agent :=
  w.map (alignmentStep (w.map fun a => (a.pos, a.vel)))

/-- The reset-acceleration system: zero every acceleration. -/
def reset_acceleration (w : List Agent) : List Agent :=
  w.map fun a => { a with acc := 0 }

/-- The reset-forces system: Forces::reset sets all three slots to zero. -/
def reset_forces (w : List Agent) : List Agent :=
  w.map fun a => { a with forces := Forces.zero }

/-- Body of the apply-forces system for one agent: three successive additions
to the acceleration, each force slot scaled by its multiplier resource. -/
def applyForcesStep (cohesionMul separationMul alignmentMul : ℝ) (a : Agent) : Agent :=
  { a with acc := a.acc + cohesionMul • a.forces.cohesion
      + separationMul • a.forces.separation
      + alignmentMul • a.forces.alignment }

/-- The apply-forces system. -/
def apply_forces (cohesionMul separationMul alignmentMul : ℝ) (w : List Agent) : List Agent :=
  w.map (applyForcesStep cohesionMul separationMul alignmentMul)

/-- Body of the move system for one agent: add the acceleration to the
velocity, clamp the velocity to MAX_SPEED, translate the sprite by
velocity * delta, and read the sprite's global position back into pos. -/
def moveStep (delta : ℝ) (a : Agent) : Agent :=
  let vel1 := (a.vel + a.acc).withMaxLength MAX_SPEED
  let newSpritePos := a.spritePos + delta • vel1
  { a with vel := vel1, spritePos := newSpritePos, pos := newSpritePos }

/-- The move_boids system. -/
def move_boids (delta : ℝ) (w : List Agent) : List Agent :=
  w.map (moveStep delta)

/-- Model of f32::atan2 on exact reals (the y.atan2(x) call of the rotate
system), by the usual quadrant case split. -/
def atan2 (y x : ℝ) : ℝ :=
  if 0 < x then Real.arctan (y / x)
  else if x < 0 then
    (if 0 ≤ y then Real.arctan (y / x) + Real.pi else Real.arctan (y / x) - Real.pi)
  else
    (if 0 < y then Real.pi / 2 else if y < 0 then -(Real.pi / 2) else 0)

/-- Body of the rotate system for one agent: set the sprite's global rotation
to atan2 of the velocity components. -/
def rotateStep (a : Agent) : Agent :=
  { a with spriteRot := atan2 a.vel.y a.vel.x }

/-- The rotate system. -/
def rotate (w : List Agent) : List Agent :=
  w.map rotateStep

/-- Body of the screen-wrap system for one agent: with a fixed offset of 16,
wrap the x coordinate across the viewport if it lies strictly beyond a bound
by more than the offset, pushing the corrected position to the sprite, then
do the same for the y coordinate. -/
def wrapStep (vp : Viewport) (a : Agent) : Agent :=
  let offset : ℝ := 16
  let a1 :=
    if a.pos.x < vp.rect.min_x - offset then
      let p := { a.pos with x := vp.rect.max_x + offset }
      { a with pos := p, spritePos := p }
    else if a.pos.x > vp.rect.max_x + offset then
      let p := { a.pos with x := vp.rect.min_x - offset }
      { a with pos := p, spritePos := p }
    else a
  if a1.pos.y < vp.rect.min_y - offset then
    let p := { a1.pos with y := vp.rect.max_y + offset }
    { a1 with pos := p, spritePos := p }
  else if a1.pos.y > vp.rect.max_y + offset then
    let p := { a1.pos with y := vp.rect.min_y - offset }
    { a1 with pos := p, spritePos := p }
  else a1

/-- The screen_wrap system. -/
def screen_wrap (vp : Viewport) (w : List Agent) : List Agent :=
  w.map (wrapStep vp)

/-- The schedule built by add_boid_systems: the nine thread-local systems in
the order they are added to the builder. -/
def add_boid_systems : List (Resources → List Agent → List Agent) :=
  [fun _ => reset_acceleration,
   fun _ => reset_forces,
   fun _ => cohesion,
   fun _ => separation,
   fun _ => alignment,
   fun r => apply_forces r.cohesion_mul r.separation_mul r.alignment_mul,
   fun r => move_boids r.delta,
   fun _ => rotate,
   fun r => screen_wrap r.viewport]

/-- One execution of the schedule over the world (Schedule::execute). -/
def tick (res : Resources) (w : List Agent) : List Agent :=
  add_boid_systems.foldl (fun cur sys => sys res cur) w

/-- GameWorld::_physics_process: store the new delta time into the Delta
resource, then execute the physics schedule. -/
def physics_process (res : Resources) (delta : ℝ) (w : List Agent) : List Agent :=
  tick { res with delta := delta } w

/-- Positions at most distance r apart in the snapshot: the agents a force
pass treats as neighbours of the position p. -/
def neighbours (ps : List Vector2) (p : Vector2) (r : ℝ) : List Vector2 :=
  ps.filter fun q => decide ((q - p).length < r)

section ScanLemmas

/-- Characterisation of the count-and-accumulate loop shared by the three
force passes: folding over the snapshot equals counting the elements that
satisfy the radius test and summing their payloads. -/
theorem foldl_scan_eq {α : Type} (P : α → Prop) (val : α → Vector2) (xs : List α) :
    ∀ (n : ℕ) (v : Vector2),
      xs.foldl (fun s q => if P q then (s.1 + 1, s.2 + val q) else s) (n, v)
        = (n + (xs.filter fun q => decide (P q)).length,
           v + vsum ((xs.filter fun q => decide (P q)).map val)) := by
  induction xs with
  | nil => intro n v; simp
  | cons q xs ih =>
    intro n v
    rw [List.foldl_cons]
    by_cases hq : P q
    · rw [if_pos hq, ih (n + 1) (v + val q)]
      have hlen : ((q :: xs).filter fun q => decide (P q)).length
          = (xs.filter fun q => decide (P q)).length + 1 := by
        simp [List.filter_cons, hq]
      have hsum : vsum (((q :: xs).filter fun q => decide (P q)).map val)
          = val q + vsum ((xs.filter fun q => decide (P q)).map val) := by
        simp [List.filter_cons, hq]
      rw [hlen, hsum]
      refine Prod.ext (by omega) ?_
      show v + val q + _ = v + (val q + _)
      ext <;> simp <;> ring
    · rw [if_neg hq, ih n v]
      simp [List.filter_cons, hq]

/-- If exactly the i-th element of the list satisfies P, the filter keeps
exactly that element. -/
theorem filter_eq_singleton_of_unique {α : Type} (P : α → Prop) (xs : List α) :
    ∀ (i : ℕ) (hi : i < xs.length), P (xs.get ⟨i, hi⟩) →
      (∀ (j : ℕ) (hj : j < xs.length), j ≠ i → ¬ P (xs.get ⟨j, hj⟩)) →
      xs.filter (fun q => decide (P q)) = [xs.get ⟨i, hi⟩] := by
  induction xs with
  | nil => intro i hi; simp at hi
  | cons q xs ih =>
    intro i hi hPi hothers
    cases i with
    | zero =>
      have hhead : P q := by simpa using hPi
      have htail : xs.filter (fun q => decide (P q)) = [] := by
        rw [List.filter_eq_nil_iff]
        intro b hb
        obtain ⟨⟨j, hj⟩, rfl⟩ := List.mem_iff_get.mp hb
        have hfar := hothers (j + 1) (by simpa using Nat.succ_lt_succ hj) (by omega)
        simpa using hfar
      simp [List.filter_cons, hhead, htail]
    | succ k =>
      have hk : k < xs.length := by simpa using hi
      have hhead : ¬ P q := by
        have := hothers 0 (by simp) (by omega)
        simpa using this
      have htail := ih k hk (by simpa using hPi) ?_
      · simp [List.filter_cons, hhead]
        simpa using htail
      · intro j hj hne
        have := hothers (j + 1) (by simpa using Nat.succ_lt_succ hj) (by omega)
        simpa using this

end ScanLemmas

section FrameLemmas

@[simp] theorem cohesionStep_pos (ps : List Vector2) (a : Agent) :
    (cohesionStep ps a).pos = a.pos := by
  rw [cohesionStep]; split_ifs <;> rfl

@[simp] theorem cohesionStep_vel (ps : List Vector2) (a : Agent) :
    (cohesionStep ps a).vel = a.vel := by
  rw [cohesionStep]; split_ifs <;> rfl

@[simp] theorem cohesionStep_acc (ps : List Vector2) (a : Agent) :
    (cohesionStep ps a).acc = a.acc := by
  rw [cohesionStep]; split_ifs <;> rfl

@[simp] theorem cohesionStep_spritePos (ps : List Vector2) (a : Agent) :
    (cohesionStep ps a).spritePos = a.spritePos := by
  rw [cohesionStep]; split_ifs <;> rfl

@[simp] theorem cohesionStep_spriteRot (ps : List Vector2) (a : Agent) :
    (cohesionStep ps a).spriteRot = a.spriteRot := by
  rw [cohesionStep]; split_ifs <;> rfl

@[simp] theorem cohesionStep_sep (ps : List Vector2) (a : Agent) :
    (cohesionStep ps a).forces.separation = a.forces.separation := by
  rw [cohesionStep]; split_ifs <;> rfl

@[simp] theorem cohesionStep_align (ps : List Vector2) (a : Agent) :
    (cohesionStep ps a).forces.alignment = a.forces.alignment := by
  rw [cohesionStep]; split_ifs <;> rfl

@[simp] theorem separationStep_pos (ps : List Vector2) (a : Agent) :
    (separationStep ps a).pos = a.pos := by
  rw [separationStep]; split_ifs <;> rfl

@[simp] theorem separationStep_vel (ps : List Vector2) (a : Agent) :
    (separationStep ps a).vel = a.vel := by
  rw [separationStep]; split_ifs <;> rfl

@[simp] theorem separationStep_acc (ps : List Vector2) (a : Agent) :
    (separationStep ps a).acc = a.acc := by
  rw [separationStep]; split_ifs <;> rfl

@[simp] theorem separationStep_spritePos (ps : List Vector2) (a : Agent) :
    (separationStep ps a).spritePos = a.spritePos := by
  rw [separationStep]; split_ifs <;> rfl

@[simp] theorem separationStep_spriteRot (ps : List Vector2) (a : Agent) :
    (separationStep ps a).spriteRot = a.spriteRot := by
  rw [separationStep]; split_ifs <;> rfl

@[simp] theorem separationStep_coh (ps : List Vector2) (a : Agent) :
    (separationStep ps a).forces.cohesion = a.forces.cohesion := by
  rw [separationStep]; split_ifs <;> rfl

@[simp] theorem separationStep_align (ps : List Vector2) (a : Agent) :
    (separationStep ps a).forces.alignment = a.forces.alignment := by
  rw [separationStep]; split_ifs <;> rfl

@[simp] theorem alignmentStep_pos (ps : List (Vector2 × Vector2)) (a : Agent) :
    (alignmentStep ps a).pos = a.pos := by
  rw [alignmentStep]; split_ifs <;> rfl

@[simp] theorem alignmentStep_vel (ps : List (Vector2 × Vector2)) (a : Agent) :
    (alignmentStep ps a).vel = a.vel := by
  rw [alignmentStep]; split_ifs <;> rfl

@[simp] theorem alignmentStep_acc (ps : List (Vector2 × Vector2)) (a : Agent) :
    (alignmentStep ps a).acc = a.acc := by
  rw [alignmentStep]; split_ifs <;> rfl

@[simp] theorem alignmentStep_spritePos (ps : List (Vector2 × Vector2)) (a : Agent) :
    (alignmentStep ps a).spritePos = a.spritePos := by
  rw [alignmentStep]; split_ifs <;> rfl

@[simp] theorem alignmentStep_spriteRot (ps : List (Vector2 × Vector2)) (a : Agent) :
    (alignmentStep ps a).spriteRot = a.spriteRot := by
  rw [alignmentStep]; split_ifs <;> rfl

@[simp] theorem alignmentStep_coh (ps : List (Vector2 × Vector2)) (a : Agent) :
    (alignmentStep ps a).forces.cohesion = a.forces.cohesion := by
  rw [alignmentStep]; split_ifs <;> rfl

@[simp] theorem alignmentStep_sep (ps : List (Vector2 × Vector2)) (a : Agent) :
    (alignmentStep ps a).forces.separation = a.forces.separation := by
  rw [alignmentStep]; split_ifs <;> rfl

@[simp] theorem wrapStep_vel (vp : Viewport) (a : Agent) :
    (wrapStep vp a).vel = a.vel := by
  rw [wrapStep]; split_ifs <;> rfl

@[simp] theorem wrapStep_acc (vp : Viewport) (a : Agent) :
    (wrapStep vp a).acc = a.acc := by
  rw [wrapStep]; split_ifs <;> rfl

@[simp] theorem rotateStep_pos (a : Agent) : (rotateStep a).pos = a.pos := rfl

@[simp] theorem rotateStep_vel (a : Agent) : (rotateStep a).vel = a.vel := rfl

@[simp] theorem moveStep_vel (delta : ℝ) (a : Agent) :
    (moveStep delta a).vel = (a.vel + a.acc).withMaxLength MAX_SPEED := rfl

@[simp] theorem applyForcesStep_pos (cm sm am : ℝ) (a : Agent) :
    (applyForcesStep cm sm am a).pos = a.pos := rfl

@[simp] theorem applyForcesStep_vel (cm sm am : ℝ) (a : Agent) :
    (applyForcesStep cm sm am a).vel = a.vel := rfl

@[simp] theorem applyForcesStep_forces (cm sm am : ℝ) (a : Agent) :
    (applyForcesStep cm sm am a).forces = a.forces := rfl

@[simp] theorem applyForcesStep_acc (cm sm am : ℝ) (a : Agent) :
    (applyForcesStep cm sm am a).acc
      = a.acc + cm • a.forces.cohesion + sm • a.forces.separation
          + am • a.forces.alignment := rfl

end FrameLemmas

section PassLemmas

@[simp] theorem length_cohesion (w : List Agent) : (cohesion w).length = w.length := by
  simp [cohesion]

@[simp] theorem length_separation (w : List Agent) : (separation w).length = w.length := by
  simp [separation]

@[simp] theorem length_alignment (w : List Agent) : (alignment w).length = w.length := by
  simp [alignment]

@[simp] theorem length_reset_acceleration (w : List Agent) :
    (reset_acceleration w).length = w.length := by
  simp [reset_acceleration]

@[simp] theorem length_reset_forces (w : List Agent) :
    (reset_forces w).length = w.length := by
  simp [reset_forces]

@[simp] theorem length_apply_forces (cm sm am : ℝ) (w : List Agent) :
    (apply_forces cm sm am w).length = w.length := by
  simp [apply_forces]

@[simp] theorem length_move_boids (d : ℝ) (w : List Agent) :
    (move_boids d w).length = w.length := by
  simp [move_boids]

@[simp] theorem length_rotate (w : List Agent) : (rotate w).length = w.length := by
  simp [rotate]

@[simp] theorem length_screen_wrap (vp : Viewport) (w : List Agent) :
    (screen_wrap vp w).length = w.length := by
  simp [screen_wrap]

theorem cohesion_get (w : List Agent) (i : ℕ) (h : i < (cohesion w).length) :
    (cohesion w).get ⟨i, h⟩
      = cohesionStep (w.map Agent.pos) (w.get ⟨i, by simpa using h⟩) := by
  simp [cohesion]

theorem separation_get (w : List Agent) (i : ℕ) (h : i < (separation w).length) :
    (separation w).get ⟨i, h⟩
      = separationStep (w.map Agent.pos) (w.get ⟨i, by simpa using h⟩) := by
  simp [separation]

theorem alignment_get (w : List Agent) (i : ℕ) (h : i < (alignment w).length) :
    (alignment w).get ⟨i, h⟩
      = alignmentStep (w.map fun a => (a.pos, a.vel)) (w.get ⟨i, by simpa using h⟩) := by
  simp [alignment]

theorem reset_acceleration_get (w : List Agent) (i : ℕ)
    (h : i < (reset_acceleration w).length) :
    (reset_acceleration w).get ⟨i, h⟩
      = { w.get ⟨i, by simpa using h⟩ with acc := 0 } := by
  simp [reset_acceleration]

theorem reset_forces_get (w : List Agent) (i : ℕ) (h : i < (reset_forces w).length) :
    (reset_forces w).get ⟨i, h⟩
      = { w.get ⟨i, by simpa using h⟩ with forces := Forces.zero } := by
  simp [reset_forces]

theorem apply_forces_get (cm sm am : ℝ) (w : List Agent) (i : ℕ)
    (h : i < (apply_forces cm sm am w).length) :
    (apply_forces cm sm am w).get ⟨i, h⟩
      = applyForcesStep cm sm am (w.get ⟨i, by simpa using h⟩) := by
  simp [apply_forces]

/-- All positions are unchanged by the cohesion pass. -/
theorem cohesion_map_pos (w : List Agent) :
    (cohesion w).map Agent.pos = w.map Agent.pos := by
  rw [cohesion, List.map_map]
  exact List.map_congr_left fun a _ => cohesionStep_pos _ a

theorem separation_map_pos (w : List Agent) :
    (separation w).map Agent.pos = w.map Agent.pos := by
  rw [separation, List.map_map]
  exact List.map_congr_left fun a _ => separationStep_pos _ a

theorem reset_acceleration_map_pos (w : List Agent) :
    (reset_acceleration w).map Agent.pos = w.map Agent.pos := by
  rw [reset_acceleration, List.map_map]
  exact List.map_congr_left fun a _ => rfl

theorem reset_forces_map_pos (w : List Agent) :
    (reset_forces w).map Agent.pos = w.map Agent.pos := by
  rw [reset_forces, List.map_map]
  exact List.map_congr_left fun a _ => rfl

/-- Position and velocity snapshots are unchanged by the two earlier force
passes and the two reset passes. -/
theorem cohesion_map_posvel (w : List Agent) :
    (cohesion w).map (fun a => (a.pos, a.vel)) = w.map fun a => (a.pos, a.vel) := by
  rw [cohesion, List.map_map]
  exact List.map_congr_left fun a _ => by simp

theorem separation_map_posvel (w : List Agent) :
    (separation w).map (fun a => (a.pos, a.vel)) = w.map fun a => (a.pos, a.vel) := by
  rw [separation, List.map_map]
  exact List.map_congr_left fun a _ => by simp

theorem reset_acceleration_map_posvel (w : List Agent) :
    (reset_acceleration w).map (fun a => (a.pos, a.vel))
      = w.map fun a => (a.pos, a.vel) := by
  rw [reset_acceleration, List.map_map]
  exact List.map_congr_left fun a _ => rfl

theorem reset_forces_map_posvel (w : List Agent) :
    (reset_forces w).map (fun a => (a.pos, a.vel)) = w.map fun a => (a.pos, a.vel) := by
  rw [reset_forces, List.map_map]
  exact List.map_congr_left fun a _ => rfl

end PassLemmas

section StepCharacterisation

/-- Pairs of the snapshot whose position lies strictly within distance r. -/
def neighbourPairs (ps : List (Vector2 × Vector2)) (p : Vector2) (r : ℝ) :
    List (Vector2 × Vector2) :=
  ps.filter fun q => decide ((q.1 - p).length < r)

theorem cohesionStep_eq (ps : List Vector2) (a : Agent) :
    cohesionStep ps a =
      if (neighbours ps a.pos 200).length > 0 then
        { a with forces := { a.forces with cohesion :=
            ((a.forces.cohesion + vsum (neighbours ps a.pos 200)).divScalar
              ((neighbours ps a.pos 200).length : ℝ)) - a.pos } }
      else a := by
  rw [cohesionStep]
  rw [foldl_scan_eq (fun q => (q - a.pos).length < 200) (fun q => q) ps 0 a.forces.cohesion]
  simp [neighbours]

theorem separationStep_eq (ps : List Vector2) (a : Agent) :
    separationStep ps a =
      if (neighbours ps a.pos 100).length > 0 then
        { a with forces := { a.forces with separation :=
            ((a.forces.separation
                + vsum ((neighbours ps a.pos 100).map fun q => a.pos - q)).divScalar
              ((neighbours ps a.pos 100).length : ℝ)) } }
      else a := by
  rw [separationStep]
  rw [foldl_scan_eq (fun q => (q - a.pos).length < 100) (fun q => a.pos - q) ps 0
    a.forces.separation]
  simp [neighbours]

theorem alignmentStep_eq (ps : List (Vector2 × Vector2)) (a : Agent) :
    alignmentStep ps a =
      if (neighbourPairs ps a.pos 100).length > 0 then
        { a with forces := { a.forces with alignment :=
            ((a.forces.alignment
                + vsum ((neighbourPairs ps a.pos 100).map Prod.snd)).divScalar
              ((neighbourPairs ps a.pos 100).length : ℝ)) } }
      else a := by
  rw [alignmentStep]
  rw [foldl_scan_eq (fun q : Vector2 × Vector2 => (q.1 - a.pos).length < 100)
    (fun q => q.2) ps 0 a.forces.alignment]
  simp [neighbourPairs]

end StepCharacterisation

section ConcreteObjects

/-- Agent with a given position and velocity, zero acceleration and forces,
sprite in sync with the position, as produced by GameWorld::_ready. -/
def mkAgent (p v : Vector2) : Agent := ⟨p, v, 0, Forces.zero, p, 0⟩

/-- Sample viewport: a 200 by 200 rectangle centred at the origin. -/
def testViewport : Viewport := ⟨⟨⟨-100, -100⟩, ⟨200, 200⟩⟩⟩

/-- Sample resources with unit delta and multipliers, as set by _init. -/
def testResources : Resources := ⟨1, 1, 1, 1, testViewport⟩

/-- Sample agent at the origin moving along x. -/
def agentA : Agent := mkAgent ⟨0, 0⟩ ⟨1, 0⟩

/-- Sample agent at distance 50 from agentA. -/
def agentB : Agent := mkAgent ⟨50, 0⟩ ⟨0, 1⟩

end ConcreteObjects

/-- Unfolding of the schedule fold into the stage composition. -/
theorem tick_unfold (res : Resources) (w : List Agent) :
    tick res w =
      screen_wrap res.viewport (rotate (move_boids res.delta
        (apply_forces res.cohesion_mul res.separation_mul res.alignment_mul
          (alignment (separation (cohesion (reset_forces (reset_acceleration w)))))))) :=
  rfl

/-- C6: every tick executes the nine pipeline stages in the fixed order
reset-acceleration, reset-forces, cohesion, separation, alignment,
blend-forces, velocity and position update, heading update, boundary wrap,
over the full agent set, with no stage skipped or reordered. -/
theorem tick_pipeline_order (res : Resources) (w : List Agent) :
    tick res w =
      screen_wrap res.viewport (rotate (move_boids res.delta
        (apply_forces res.cohesion_mul res.separation_mul res.alignment_mul
          (alignment (separation (cohesion (reset_forces (reset_acceleration w)))))))) := by
  rw [tick]
  simp [add_boid_systems]

/-- C9: the tick pipeline is a pure function of the agent-set snapshot and the
resources, so two invocations on identical copies with identical parameters
produce identical results. -/
theorem tick_deterministic (res₁ res₂ : Resources) (w₁ w₂ : List Agent)
    (hres : res₁ = res₂) (hw : w₁ = w₂) : tick res₁ w₁ = tick res₂ w₂ := by
  rw [hres, hw]

/-- C9 witness: determinism instantiated on a concrete snapshot. -/
theorem tick_deterministic_witness :
    tick testResources [agentA] = tick testResources [agentA] :=
  tick_deterministic testResources testResources [agentA] [agentA] rfl rfl

/-- C1: after a tick, every agent's velocity magnitude is at most MAX_SPEED:
the move step clamps velocity + acceleration to length MAX_SPEED, and the
later heading and wrap stages do not modify velocity. -/
theorem speed_bound_after_tick (res : Resources) (w : List Agent) :
    (tick res w).Forall fun a => a.vel.length ≤ MAX_SPEED := by
  rw [List.forall_iff_forall_mem]
  intro a ha
  rw [tick_unfold] at ha
  simp only [screen_wrap, rotate, move_boids, List.mem_map] at ha
  obtain ⟨b, ⟨c, ⟨e, he, rfl⟩, rfl⟩, rfl⟩ := ha
  rw [wrapStep_vel, rotateStep_vel, moveStep_vel]
  exact Vector2.length_withMaxLength_le _ MAX_SPEED (by norm_num [MAX_SPEED])

/-- C5: the blend step adds exactly cohesion * cohesion_mul + separation *
separation_mul + alignment * alignment_mul to each agent's acceleration, and
the move step sets velocity to velocity + acceleration clamped to MAX_SPEED,
the clamp being the identity when the length is already at most MAX_SPEED. -/
theorem blend_and_velocity_update (cm sm am d : ℝ) (a : Agent) (v : Vector2)
    (hv : v.length ≤ MAX_SPEED) :
    applyForcesStep cm sm am a
        = { a with acc := a.acc + (cm • a.forces.cohesion
            + sm • a.forces.separation + am • a.forces.alignment) }
    ∧ (∀ w : List Agent, apply_forces cm sm am w = w.map (applyForcesStep cm sm am))
    ∧ moveStep d a = { a with
        vel := (a.vel + a.acc).withMaxLength MAX_SPEED,
        spritePos := a.spritePos + d • (a.vel + a.acc).withMaxLength MAX_SPEED,
        pos := a.spritePos + d • (a.vel + a.acc).withMaxLength MAX_SPEED }
    ∧ (∀ w : List Agent, move_boids d w = w.map (moveStep d))
    ∧ v.withMaxLength MAX_SPEED = v := by
  refine ⟨?_, fun w => rfl, rfl, fun w => rfl, ?_⟩
  · ext <;> simp [applyForcesStep] <;> ring
  · exact v.withMaxLength_eq_self MAX_SPEED (by norm_num [MAX_SPEED]) hv

/-- C5 witness: the clamp is the identity on the concrete vector (3, 4) of
length 5, instantiating the hypothesis of the theorem. -/
theorem blend_and_velocity_update_witness :
    (⟨3, 4⟩ : Vector2).withMaxLength MAX_SPEED = ⟨3, 4⟩ :=
  (blend_and_velocity_update 1 1 1 1 agentA ⟨3, 4⟩ (by
    rw [Vector2.length_le_iff _ _ (by norm_num [MAX_SPEED])]
    norm_num [Vector2.squareLength, MAX_SPEED])).2.2.2.2

/-- C8: for a fixed force snapshot, scaling one multiplier by k scales that
force's contribution to the acceleration by exactly k, the other two
multipliers held fixed; the contribution is the difference from running the
blend with that multiplier set to zero. -/
theorem multiplier_linearity (k cm sm am : ℝ) (a : Agent) :
    ((applyForcesStep (k * cm) sm am a).acc - (applyForcesStep 0 sm am a).acc
        = k • ((applyForcesStep cm sm am a).acc - (applyForcesStep 0 sm am a).acc))
    ∧ ((applyForcesStep cm (k * sm) am a).acc - (applyForcesStep cm 0 am a).acc
        = k • ((applyForcesStep cm sm am a).acc - (applyForcesStep cm 0 am a).acc))
    ∧ ((applyForcesStep cm sm (k * am) a).acc - (applyForcesStep cm sm 0 a).acc
        = k • ((applyForcesStep cm sm am a).acc - (applyForcesStep cm sm 0 a).acc))
    ∧ ∀ w : List Agent, apply_forces cm sm am w = w.map (applyForcesStep cm sm am) := by
  refine ⟨?_, ?_, ?_, fun w => rfl⟩ <;> ext <;> simp <;> ring

@[simp] theorem Forces.zero_cohesion : Forces.zero.cohesion = 0 := rfl

@[simp] theorem Forces.zero_separation : Forces.zero.separation = 0 := rfl

@[simp] theorem Forces.zero_alignment : Forces.zero.alignment = 0 := rfl

/-- Prefix of the tick pipeline up to the three force passes: the two resets
followed by cohesion, separation and alignment, in schedule order. -/
def force_phase (w : List Agent) : List Agent :=
  alignment (separation (cohesion (reset_forces (reset_acceleration w))))

@[simp] theorem length_force_phase (w : List Agent) :
    (force_phase w).length = w.length := by
  simp [force_phase]

/-- Isolated agent: if every other agent is at distance at least 200 from
agent i, then after the force passes agent i's cohesion and separation
accumulators are zero, its alignment accumulator equals its own velocity
(the scan counts the agent itself), and after the blend its acceleration is
the alignment multiplier times its own velocity. -/
theorem isolated_forces_aux (cm sm am : ℝ) (w : List Agent) (i : ℕ) (h : i < w.length)
    (hiso : ∀ (j : ℕ) (hj : j < w.length), j ≠ i →
      ¬ ((w.get ⟨j, hj⟩).pos - (w.get ⟨i, h⟩).pos).length < 200) :
    ((force_phase w).get ⟨i, by simpa using h⟩).forces.cohesion = 0
    ∧ ((force_phase w).get ⟨i, by simpa using h⟩).forces.separation = 0
    ∧ ((force_phase w).get ⟨i, by simpa using h⟩).forces.alignment = (w.get ⟨i, h⟩).vel
    ∧ ((apply_forces cm sm am (force_phase w)).get ⟨i, by simpa using h⟩).acc
        = am • (w.get ⟨i, h⟩).vel := by
  have hmaplen : i < (w.map Agent.pos).length := by simpa using h
  have hget_map : (w.map Agent.pos).get ⟨i, hmaplen⟩ = (w.get ⟨i, h⟩).pos := by simp
  have hn200 : neighbours (w.map Agent.pos) (w.get ⟨i, h⟩).pos 200
      = [(w.get ⟨i, h⟩).pos] := by
    rw [neighbours]
    have hs := filter_eq_singleton_of_unique
      (fun q => (q - (w.get ⟨i, h⟩).pos).length < 200) (w.map Agent.pos) i hmaplen
      (by rw [hget_map]; simp only [Vector2.vsub_self, Vector2.length_vzero]; norm_num)
      (by
        intro j hj hne
        have hj2 : j < w.length := by simpa using hj
        have hq : (w.map Agent.pos).get ⟨j, hj⟩ = (w.get ⟨j, hj2⟩).pos := by simp
        rw [hq]
        exact hiso j hj2 hne)
    rw [hget_map] at hs
    exact hs
  have hn100 : neighbours (w.map Agent.pos) (w.get ⟨i, h⟩).pos 100
      = [(w.get ⟨i, h⟩).pos] := by
    rw [neighbours]
    have hs := filter_eq_singleton_of_unique
      (fun q => (q - (w.get ⟨i, h⟩).pos).length < 100) (w.map Agent.pos) i hmaplen
      (by rw [hget_map]; simp only [Vector2.vsub_self, Vector2.length_vzero]; norm_num)
      (by
        intro j hj hne
        have hj2 : j < w.length := by simpa using hj
        have hq : (w.map Agent.pos).get ⟨j, hj⟩ = (w.get ⟨j, hj2⟩).pos := by simp
        rw [hq]
        intro hcontra
        exact hiso j hj2 hne (lt_trans hcontra (by norm_num)))
    rw [hget_map] at hs
    exact hs
  have hmaplen2 : i < (w.map fun a => (a.pos, a.vel)).length := by simpa using h
  have hget2 : (w.map fun a => (a.pos, a.vel)).get ⟨i, hmaplen2⟩
      = ((w.get ⟨i, h⟩).pos, (w.get ⟨i, h⟩).vel) := by simp
  have hpairs : neighbourPairs (w.map fun a => (a.pos, a.vel)) (w.get ⟨i, h⟩).pos 100
      = [((w.get ⟨i, h⟩).pos, (w.get ⟨i, h⟩).vel)] := by
    rw [neighbourPairs]
    have hs := filter_eq_singleton_of_unique
      (fun q : Vector2 × Vector2 => (q.1 - (w.get ⟨i, h⟩).pos).length < 100)
      (w.map fun a => (a.pos, a.vel)) i hmaplen2
      (by rw [hget2]; simp only [Vector2.vsub_self, Vector2.length_vzero]; norm_num)
      (by
        intro j hj hne
        have hj2 : j < w.length := by simpa using hj
        have hq : (w.map fun a => (a.pos, a.vel)).get ⟨j, hj⟩
            = ((w.get ⟨j, hj2⟩).pos, (w.get ⟨j, hj2⟩).vel) := by simp
        rw [hq]
        intro hcontra
        exact hiso j hj2 hne (lt_trans hcontra (by norm_num)))
    rw [hget2] at hs
    exact hs
  have hl : i < (force_phase w).length := by simpa using h
  have hget3 : (force_phase w).get ⟨i, hl⟩
      = alignmentStep (w.map fun a => (a.pos, a.vel))
          (separationStep (w.map Agent.pos)
            (cohesionStep (w.map Agent.pos)
              { w.get ⟨i, h⟩ with acc := 0, forces := Forces.zero })) := by
    simp only [force_phase]
    rw [alignment_get _ i (by simpa using h)]
    rw [separation_map_posvel, cohesion_map_posvel, reset_forces_map_posvel,
      reset_acceleration_map_posvel]
    rw [separation_get _ i (by simpa using h)]
    rw [cohesion_map_pos, reset_forces_map_pos, reset_acceleration_map_pos]
    rw [cohesion_get _ i (by simpa using h)]
    rw [reset_forces_map_pos, reset_acceleration_map_pos]
    rw [reset_forces_get _ i (by simpa using h)]
    rw [reset_acceleration_get _ i (by simpa using h)]
  simp only [List.get_eq_getElem] at hn200 hn100 hpairs
  refine ⟨?_, ?_, ?_, ?_⟩
  · rw [hget3, alignmentStep_coh, separationStep_coh, cohesionStep_eq]
    simp [hn200]
  · rw [hget3, alignmentStep_sep, separationStep_eq]
    simp [hn100]
  · rw [hget3, alignmentStep_eq]
    simp [hpairs]
  · rw [apply_forces_get _ _ _ _ i (by simpa using h), hget3, applyForcesStep_acc]
    simp [alignmentStep_eq, separationStep_eq, cohesionStep_eq, hn200, hn100, hpairs]

/-- C2 counterexample: a single isolated agent with velocity (1, 0) and all
multipliers 1 has non-zero acceleration after the blend step, because the
alignment scan counted the agent itself and averaged in its own velocity. -/
theorem isolated_agent_counterexample :
    ((apply_forces 1 1 1 (force_phase [agentA])).get ⟨0, by simp⟩).acc ≠ 0 := by
  have h := (isolated_forces_aux 1 1 1 [agentA] 0 (by simp)
    (fun j hj hne => absurd (Nat.lt_one_iff.mp hj) hne)).2.2.2
  rw [h]
  have hv : ([agentA].get ⟨0, by simp⟩).vel = (⟨1, 0⟩ : Vector2) := rfl
  rw [hv]
  intro hc
  have hx := congrArg Vector2.x hc
  simp at hx

/-- C2 (amended): for an isolated agent (every other agent at distance at
least 200, hence outside both radii) the cohesion and separation accumulators
are zero after the force passes, but the alignment accumulator equals the
agent's own velocity because the scan includes the agent itself; the
acceleration after the blend is therefore the alignment multiplier times the
agent's own velocity, which is zero only when that product is zero, not in
general. -/
theorem isolated_agent_spec (cm sm am : ℝ) (w : List Agent) (i : ℕ) (h : i < w.length)
    (hiso : ∀ (j : ℕ) (hj : j < w.length), j ≠ i →
      ¬ ((w.get ⟨j, hj⟩).pos - (w.get ⟨i, h⟩).pos).length < 200) :
    ((force_phase w).get ⟨i, by simpa using h⟩).forces.cohesion = 0
    ∧ ((force_phase w).get ⟨i, by simpa using h⟩).forces.separation = 0
    ∧ ((force_phase w).get ⟨i, by simpa using h⟩).forces.alignment = (w.get ⟨i, h⟩).vel
    ∧ ((apply_forces cm sm am (force_phase w)).get ⟨i, by simpa using h⟩).acc
        = am • (w.get ⟨i, h⟩).vel :=
  isolated_forces_aux cm sm am w i h hiso

/-- C2 witness: the amended claim instantiated on a concrete one-agent world
with multipliers 2, 3, 5. -/
theorem isolated_agent_spec_witness :
    ((force_phase [agentB]).get ⟨0, by simp⟩).forces.cohesion = 0
    ∧ ((force_phase [agentB]).get ⟨0, by simp⟩).forces.separation = 0
    ∧ ((force_phase [agentB]).get ⟨0, by simp⟩).forces.alignment
        = ([agentB].get ⟨0, by simp⟩).vel
    ∧ ((apply_forces 2 3 5 (force_phase [agentB])).get ⟨0, by simp⟩).acc
        = (5 : ℝ) • ([agentB].get ⟨0, by simp⟩).vel :=
  isolated_agent_spec 2 3 5 [agentB] 0 (by simp)
    (fun j hj hne => absurd (Nat.lt_one_iff.mp hj) hne)

/-- Complete description of the three force slots after the force passes on
a two-agent world, by cases on whether the pair distance is below each
radius. -/
theorem two_agent_forces (a b : Agent) :
    ((b.pos - a.pos).length < 200 →
        ((force_phase [a, b]).get ⟨0, by simp⟩).forces.cohesion
          = (a.pos + b.pos).divScalar 2 - a.pos
        ∧ ((force_phase [a, b]).get ⟨1, by simp⟩).forces.cohesion
          = (a.pos + b.pos).divScalar 2 - b.pos)
    ∧ (¬ (b.pos - a.pos).length < 200 →
        ((force_phase [a, b]).get ⟨0, by simp⟩).forces.cohesion = 0
        ∧ ((force_phase [a, b]).get ⟨1, by simp⟩).forces.cohesion = 0)
    ∧ ((b.pos - a.pos).length < 100 →
        ((force_phase [a, b]).get ⟨0, by simp⟩).forces.separation
          = (a.pos - b.pos).divScalar 2
        ∧ ((force_phase [a, b]).get ⟨1, by simp⟩).forces.separation
          = (b.pos - a.pos).divScalar 2)
    ∧ (¬ (b.pos - a.pos).length < 100 →
        ((force_phase [a, b]).get ⟨0, by simp⟩).forces.separation = 0
        ∧ ((force_phase [a, b]).get ⟨1, by simp⟩).forces.separation = 0)
    ∧ ((b.pos - a.pos).length < 100 →
        ((force_phase [a, b]).get ⟨0, by simp⟩).forces.alignment
          = (a.vel + b.vel).divScalar 2
        ∧ ((force_phase [a, b]).get ⟨1, by simp⟩).forces.alignment
          = (a.vel + b.vel).divScalar 2)
    ∧ (¬ (b.pos - a.pos).length < 100 →
        ((force_phase [a, b]).get ⟨0, by simp⟩).forces.alignment = a.vel
        ∧ ((force_phase [a, b]).get ⟨1, by simp⟩).forces.alignment = b.vel) := by
  have h0a : ((a.pos - a.pos : Vector2)).length < (200 : ℝ) := by
    simp only [Vector2.vsub_self, Vector2.length_vzero]; norm_num
  have h0b : ((b.pos - b.pos : Vector2)).length < (200 : ℝ) := by
    simp only [Vector2.vsub_self, Vector2.length_vzero]; norm_num
  have h0a100 : ((a.pos - a.pos : Vector2)).length < (100 : ℝ) := by
    simp only [Vector2.vsub_self, Vector2.length_vzero]; norm_num
  have h0b100 : ((b.pos - b.pos : Vector2)).length < (100 : ℝ) := by
    simp only [Vector2.vsub_self, Vector2.length_vzero]; norm_num
  have hcomm : (a.pos - b.pos).length = (b.pos - a.pos).length :=
    Vector2.length_sub_comm _ _
  have hget0 : (force_phase [a, b]).get ⟨0, by simp⟩
      = alignmentStep ([a, b].map fun x => (x.pos, x.vel))
          (separationStep ([a, b].map Agent.pos)
            (cohesionStep ([a, b].map Agent.pos)
              { a with acc := 0, forces := Forces.zero })) := by
    simp only [force_phase]
    rw [alignment_get _ 0 (by simp)]
    rw [separation_map_posvel, cohesion_map_posvel, reset_forces_map_posvel,
      reset_acceleration_map_posvel]
    rw [separation_get _ 0 (by simp)]
    rw [cohesion_map_pos, reset_forces_map_pos, reset_acceleration_map_pos]
    rw [cohesion_get _ 0 (by simp)]
    rw [reset_forces_map_pos, reset_acceleration_map_pos]
    rw [reset_forces_get _ 0 (by simp)]
    rw [reset_acceleration_get _ 0 (by simp)]
    rfl
  have hget1 : (force_phase [a, b]).get ⟨1, by simp⟩
      = alignmentStep ([a, b].map fun x => (x.pos, x.vel))
          (separationStep ([a, b].map Agent.pos)
            (cohesionStep ([a, b].map Agent.pos)
              { b with acc := 0, forces := Forces.zero })) := by
    simp only [force_phase]
    rw [alignment_get _ 1 (by simp)]
    rw [separation_map_posvel, cohesion_map_posvel, reset_forces_map_posvel,
      reset_acceleration_map_posvel]
    rw [separation_get _ 1 (by simp)]
    rw [cohesion_map_pos, reset_forces_map_pos, reset_acceleration_map_pos]
    rw [cohesion_get _ 1 (by simp)]
    rw [reset_forces_map_pos, reset_acceleration_map_pos]
    rw [reset_forces_get _ 1 (by simp)]
    rw [reset_acceleration_get _ 1 (by simp)]
    rfl
  refine ⟨fun hd => ⟨?_, ?_⟩, fun hd => ⟨?_, ?_⟩, fun hd => ⟨?_, ?_⟩,
    fun hd => ⟨?_, ?_⟩, fun hd => ⟨?_, ?_⟩, fun hd => ⟨?_, ?_⟩⟩
  · rw [hget0, alignmentStep_coh, separationStep_coh, cohesionStep_eq]
    simp [neighbours, List.filter_cons, h0a, hd]
  · have hd1 : (a.pos - b.pos).length < 200 := by rw [hcomm]; exact hd
    rw [hget1, alignmentStep_coh, separationStep_coh, cohesionStep_eq]
    simp [neighbours, List.filter_cons, h0b, hd1]
  · rw [hget0, alignmentStep_coh, separationStep_coh, cohesionStep_eq]
    simp [neighbours, List.filter_cons, h0a, hd]
  · have hd1 : ¬ (a.pos - b.pos).length < 200 := by rw [hcomm]; exact hd
    rw [hget1, alignmentStep_coh, separationStep_coh, cohesionStep_eq]
    simp [neighbours, List.filter_cons, h0b, hd1]
  · rw [hget0, alignmentStep_sep, separationStep_eq]
    simp [neighbours, List.filter_cons, h0a100, hd]
  · have hd1 : (a.pos - b.pos).length < 100 := by rw [hcomm]; exact hd
    rw [hget1, alignmentStep_sep, separationStep_eq]
    simp [neighbours, List.filter_cons, h0b100, hd1]
  · rw [hget0, alignmentStep_sep, separationStep_eq]
    simp [neighbours, List.filter_cons, h0a100, hd]
  · have hd1 : ¬ (a.pos - b.pos).length < 100 := by rw [hcomm]; exact hd
    rw [hget1, alignmentStep_sep, separationStep_eq]
    simp [neighbours, List.filter_cons, h0b100, hd1]
  · rw [hget0, alignmentStep_eq]
    simp [neighbourPairs, List.filter_cons, h0a100, hd]
  · have hd1 : (a.pos - b.pos).length < 100 := by rw [hcomm]; exact hd
    rw [hget1, alignmentStep_eq]
    simp [neighbourPairs, List.filter_cons, h0b100, hd1]
  · rw [hget0, alignmentStep_eq]
    simp [neighbourPairs, List.filter_cons, h0a100, hd]
  · have hd1 : ¬ (a.pos - b.pos).length < 100 := by rw [hcomm]; exact hd
    rw [hget1, alignmentStep_eq]
    simp [neighbourPairs, List.filter_cons, h0b100, hd1]

/-- Sample agent at distance 150 from agentA with zero velocity. -/
def agentC : Agent := mkAgent ⟨150, 0⟩ ⟨0, 0⟩

/-- C3 counterexample: two agents at distance 150, the first moving with
velocity (1, 0): the pair distance is not below 100, yet the first agent's
alignment force after the passes is its own velocity, which is non-zero,
refuting that the alignment force is non-zero only when the distance is
below 100. -/
theorem radius_claim_counterexample :
    ¬ ((agentC.pos - agentA.pos).length < 100)
    ∧ ((force_phase [agentA, agentC]).get ⟨0, by simp⟩).forces.alignment ≠ 0 := by
  have hnd : ¬ ((agentC.pos - agentA.pos).length < 100) := by
    rw [Vector2.length_lt_iff _ _ (by norm_num)]
    norm_num [agentC, agentA, mkAgent, Vector2.squareLength]
  refine ⟨hnd, ?_⟩
  have h := ((two_agent_forces agentA agentC).2.2.2.2.2 hnd).1
  rw [h]
  intro hc
  have hx := congrArg Vector2.x hc
  simp [agentA, mkAgent] at hx

/-- C3 (amended): for two agents at positive distance d, each agent's
cohesion force after the passes is non-zero exactly when d < 200 and its
separation force is non-zero exactly when d < 100, both boundary-exclusive;
the alignment force is not characterised by d alone: it is the average of
the two velocities when d < 100 and the agent's own velocity otherwise. -/
theorem two_agent_radius_spec (a b : Agent) (hab : a.pos ≠ b.pos) :
    (((force_phase [a, b]).get ⟨0, by simp⟩).forces.cohesion ≠ 0
        ↔ (b.pos - a.pos).length < 200)
    ∧ (((force_phase [a, b]).get ⟨1, by simp⟩).forces.cohesion ≠ 0
        ↔ (b.pos - a.pos).length < 200)
    ∧ (((force_phase [a, b]).get ⟨0, by simp⟩).forces.separation ≠ 0
        ↔ (b.pos - a.pos).length < 100)
    ∧ (((force_phase [a, b]).get ⟨1, by simp⟩).forces.separation ≠ 0
        ↔ (b.pos - a.pos).length < 100)
    ∧ ((b.pos - a.pos).length < 100 →
        ((force_phase [a, b]).get ⟨0, by simp⟩).forces.alignment
            = (a.vel + b.vel).divScalar 2
        ∧ ((force_phase [a, b]).get ⟨1, by simp⟩).forces.alignment
            = (a.vel + b.vel).divScalar 2)
    ∧ (¬ (b.pos - a.pos).length < 100 →
        ((force_phase [a, b]).get ⟨0, by simp⟩).forces.alignment = a.vel
        ∧ ((force_phase [a, b]).get ⟨1, by simp⟩).forces.alignment = b.vel) := by
  have h2af := two_agent_forces a b
  have hsub : b.pos - a.pos ≠ 0 := fun hc =>
    hab (((Vector2.vsub_eq_zero_iff b.pos a.pos).mp hc).symm)
  have hsub2 : a.pos - b.pos ≠ 0 := fun hc =>
    hab ((Vector2.vsub_eq_zero_iff a.pos b.pos).mp hc)
  have hco : (a.pos + b.pos).divScalar 2 - a.pos = (b.pos - a.pos).divScalar 2 := by
    ext <;> simp <;> ring
  have hco2 : (a.pos + b.pos).divScalar 2 - b.pos = (a.pos - b.pos).divScalar 2 := by
    ext <;> simp <;> ring
  refine ⟨?_, ?_, ?_, ?_, fun hd => (h2af.2.2.2.2.1 hd), fun hd => (h2af.2.2.2.2.2 hd)⟩
  · by_cases hd : (b.pos - a.pos).length < 200
    · refine iff_of_true ?_ hd
      rw [(h2af.1 hd).1, hco, Ne, Vector2.divScalar_eq_zero_iff _ _ (by norm_num)]
      exact hsub
    · refine iff_of_false ?_ hd
      rw [(h2af.2.1 hd).1]
      simp
  · by_cases hd : (b.pos - a.pos).length < 200
    · refine iff_of_true ?_ hd
      rw [(h2af.1 hd).2, hco2, Ne, Vector2.divScalar_eq_zero_iff _ _ (by norm_num)]
      exact hsub2
    · refine iff_of_false ?_ hd
      rw [(h2af.2.1 hd).2]
      simp
  · by_cases hd : (b.pos - a.pos).length < 100
    · refine iff_of_true ?_ hd
      rw [(h2af.2.2.1 hd).1, Ne, Vector2.divScalar_eq_zero_iff _ _ (by norm_num)]
      exact hsub2
    · refine iff_of_false ?_ hd
      rw [(h2af.2.2.2.1 hd).1]
      simp
  · by_cases hd : (b.pos - a.pos).length < 100
    · refine iff_of_true ?_ hd
      rw [(h2af.2.2.1 hd).2, Ne, Vector2.divScalar_eq_zero_iff _ _ (by norm_num)]
      exact hsub
    · refine iff_of_false ?_ hd
      rw [(h2af.2.2.2.1 hd).2]
      simp

/-- C3 witness: the amended claim instantiated on two concrete agents at
distance 50. -/
theorem two_agent_radius_spec_witness :
    (((force_phase [agentA, agentB]).get ⟨0, by simp⟩).forces.cohesion ≠ 0
        ↔ (agentB.pos - agentA.pos).length < 200)
    ∧ (((force_phase [agentA, agentB]).get ⟨1, by simp⟩).forces.cohesion ≠ 0
        ↔ (agentB.pos - agentA.pos).length < 200)
    ∧ (((force_phase [agentA, agentB]).get ⟨0, by simp⟩).forces.separation ≠ 0
        ↔ (agentB.pos - agentA.pos).length < 100)
    ∧ (((force_phase [agentA, agentB]).get ⟨1, by simp⟩).forces.separation ≠ 0
        ↔ (agentB.pos - agentA.pos).length < 100)
    ∧ ((agentB.pos - agentA.pos).length < 100 →
        ((force_phase [agentA, agentB]).get ⟨0, by simp⟩).forces.alignment
            = (agentA.vel + agentB.vel).divScalar 2
        ∧ ((force_phase [agentA, agentB]).get ⟨1, by simp⟩).forces.alignment
            = (agentA.vel + agentB.vel).divScalar 2)
    ∧ (¬ (agentB.pos - agentA.pos).length < 100 →
        ((force_phase [agentA, agentB]).get ⟨0, by simp⟩).forces.alignment
            = agentA.vel
        ∧ ((force_phase [agentA, agentB]).get ⟨1, by simp⟩).forces.alignment
            = agentB.vel) :=
  two_agent_radius_spec agentA agentB (by
    intro hc
    have hx := congrArg Vector2.x hc
    simp [agentA, agentB, mkAgent] at hx)

/-- C4: the neighbour scans include the agent itself, whose distance to
itself is zero, below both radii; hence every agent has at least one
neighbour at both radii, and after the resets the cohesion force equals the
average position of all agents within radius 200 (self included) minus the
agent's own position. -/
theorem cohesion_self_inclusion (w : List Agent) (i : ℕ) (h : i < w.length) :
    1 ≤ (neighbours (w.map Agent.pos) (w.get ⟨i, h⟩).pos 200).length
    ∧ 1 ≤ (neighbours (w.map Agent.pos) (w.get ⟨i, h⟩).pos 100).length
    ∧ ((cohesion (reset_forces (reset_acceleration w))).get
          ⟨i, by simpa using h⟩).forces.cohesion
        = (vsum (neighbours (w.map Agent.pos) (w.get ⟨i, h⟩).pos 200)).divScalar
            ((neighbours (w.map Agent.pos) (w.get ⟨i, h⟩).pos 200).length : ℝ)
          - (w.get ⟨i, h⟩).pos := by
  have hp_mem : (w.get ⟨i, h⟩).pos ∈ w.map Agent.pos :=
    List.mem_map_of_mem Agent.pos (w.get_mem i h)
  have hzero : ((w.get ⟨i, h⟩).pos - (w.get ⟨i, h⟩).pos).length = 0 := by
    simp
  have hself200 : (w.get ⟨i, h⟩).pos ∈ neighbours (w.map Agent.pos) (w.get ⟨i, h⟩).pos 200 := by
    rw [neighbours, List.mem_filter]
    refine ⟨hp_mem, ?_⟩
    rw [decide_eq_true_eq, hzero]
    norm_num
  have hself100 : (w.get ⟨i, h⟩).pos ∈ neighbours (w.map Agent.pos) (w.get ⟨i, h⟩).pos 100 := by
    rw [neighbours, List.mem_filter]
    refine ⟨hp_mem, ?_⟩
    rw [decide_eq_true_eq, hzero]
    norm_num
  have hlen200 : 1 ≤ (neighbours (w.map Agent.pos) (w.get ⟨i, h⟩).pos 200).length :=
    List.length_pos.mpr (List.ne_nil_of_mem hself200)
  have hlen100 : 1 ≤ (neighbours (w.map Agent.pos) (w.get ⟨i, h⟩).pos 100).length :=
    List.length_pos.mpr (List.ne_nil_of_mem hself100)
  refine ⟨hlen200, hlen100, ?_⟩
  rw [cohesion_get _ i (by simpa using h)]
  rw [reset_forces_map_pos, reset_acceleration_map_pos]
  rw [reset_forces_get _ i (by simpa using h), reset_acceleration_get _ i (by simpa using h)]
  rw [cohesionStep_eq]
  simp only [Forces.zero_cohesion]
  rw [if_pos (by simpa using hlen200)]
  simp

/-- C4 witness: the self-inclusion facts instantiated on a concrete
two-agent world. -/
theorem cohesion_self_inclusion_witness :
    1 ≤ (neighbours ([agentA, agentB].map Agent.pos)
        ([agentA, agentB].get ⟨0, by simp⟩).pos 200).length
    ∧ 1 ≤ (neighbours ([agentA, agentB].map Agent.pos)
        ([agentA, agentB].get ⟨0, by simp⟩).pos 100).length
    ∧ ((cohesion (reset_forces (reset_acceleration [agentA, agentB]))).get
          ⟨0, by simp⟩).forces.cohesion
        = (vsum (neighbours ([agentA, agentB].map Agent.pos)
              ([agentA, agentB].get ⟨0, by simp⟩).pos 200)).divScalar
            ((neighbours ([agentA, agentB].map Agent.pos)
              ([agentA, agentB].get ⟨0, by simp⟩).pos 200).length : ℝ)
          - ([agentA, agentB].get ⟨0, by simp⟩).pos :=
  cohesion_self_inclusion [agentA, agentB] 0 (by simp)

section WrapLemmas

/-- The x-axis half of the wrap body. -/
def wrapX (vp : Viewport) (a : Agent) : Agent :=
  if a.pos.x < vp.rect.min_x - 16 then
    let p := { a.pos with x := vp.rect.max_x + 16 }
    { a with pos := p, spritePos := p }
  else if a.pos.x > vp.rect.max_x + 16 then
    let p := { a.pos with x := vp.rect.min_x - 16 }
    { a with pos := p, spritePos := p }
  else a

/-- The y-axis half of the wrap body. -/
def wrapY (vp : Viewport) (a : Agent) : Agent :=
  if a.pos.y < vp.rect.min_y - 16 then
    let p := { a.pos with y := vp.rect.max_y + 16 }
    { a with pos := p, spritePos := p }
  else if a.pos.y > vp.rect.max_y + 16 then
    let p := { a.pos with y := vp.rect.min_y - 16 }
    { a with pos := p, spritePos := p }
  else a

/-- The wrap body is the x-axis half followed by the y-axis half. -/
theorem wrapStep_decompose (vp : Viewport) (a : Agent) :
    wrapStep vp a = wrapY vp (wrapX vp a) := rfl

@[simp] theorem wrapX_pos_y (vp : Viewport) (a : Agent) :
    (wrapX vp a).pos.y = a.pos.y := by
  rw [wrapX]; split_ifs <;> rfl

@[simp] theorem wrapY_pos_x (vp : Viewport) (a : Agent) :
    (wrapY vp a).pos.x = a.pos.x := by
  rw [wrapY]; split_ifs <;> rfl

theorem wrapX_high (vp : Viewport) (a : Agent)
    (hsane : vp.rect.min_x - 16 ≤ vp.rect.max_x + 16)
    (h : a.pos.x > vp.rect.max_x + 16) :
    (wrapX vp a).pos.x = vp.rect.min_x - 16
      ∧ (wrapX vp a).spritePos = (wrapX vp a).pos := by
  rw [wrapX, if_neg (not_lt.mpr (by linarith)), if_pos h]
  exact ⟨rfl, rfl⟩

theorem wrapX_low (vp : Viewport) (a : Agent)
    (h : a.pos.x < vp.rect.min_x - 16) :
    (wrapX vp a).pos.x = vp.rect.max_x + 16
      ∧ (wrapX vp a).spritePos = (wrapX vp a).pos := by
  rw [wrapX, if_pos h]
  exact ⟨rfl, rfl⟩

theorem wrapX_id (vp : Viewport) (a : Agent)
    (h1 : vp.rect.min_x - 16 ≤ a.pos.x) (h2 : a.pos.x ≤ vp.rect.max_x + 16) :
    wrapX vp a = a := by
  rw [wrapX, if_neg (not_lt.mpr h1), if_neg (not_lt.mpr h2)]

theorem wrapY_high (vp : Viewport) (a : Agent)
    (hsane : vp.rect.min_y - 16 ≤ vp.rect.max_y + 16)
    (h : a.pos.y > vp.rect.max_y + 16) :
    (wrapY vp a).pos.y = vp.rect.min_y - 16
      ∧ (wrapY vp a).spritePos = (wrapY vp a).pos := by
  rw [wrapY, if_neg (not_lt.mpr (by linarith)), if_pos h]
  exact ⟨rfl, rfl⟩

theorem wrapY_low (vp : Viewport) (a : Agent)
    (h : a.pos.y < vp.rect.min_y - 16) :
    (wrapY vp a).pos.y = vp.rect.max_y + 16
      ∧ (wrapY vp a).spritePos = (wrapY vp a).pos := by
  rw [wrapY, if_pos h]
  exact ⟨rfl, rfl⟩

theorem wrapY_id (vp : Viewport) (a : Agent)
    (h1 : vp.rect.min_y - 16 ≤ a.pos.y) (h2 : a.pos.y ≤ vp.rect.max_y + 16) :
    wrapY vp a = a := by
  rw [wrapY, if_neg (not_lt.mpr h1), if_neg (not_lt.mpr h2)]

theorem wrapY_sprite_sync (vp : Viewport) (a : Agent)
    (h : a.spritePos = a.pos) :
    (wrapY vp a).spritePos = (wrapY vp a).pos := by
  rw [wrapY]; split_ifs <;> simp [h]

end WrapLemmas

/-- C7: an agent whose position exceeds a viewport bound by more than the
16-unit margin on an axis is wrapped to the opposite bound with the same
margin on that axis, with the corrected position pushed to the sprite; an
agent within the bounds plus margin on both axes is left unchanged.  The
sanity hypotheses say the viewport interval (widened by the margin) is
non-empty on each axis, as holds for a real display surface. -/
theorem screen_wrap_spec (vp : Viewport) (a : Agent)
    (hsx : vp.rect.min_x - 16 ≤ vp.rect.max_x + 16)
    (hsy : vp.rect.min_y - 16 ≤ vp.rect.max_y + 16) :
    (a.pos.x > vp.rect.max_x + 16 → (wrapStep vp a).pos.x = vp.rect.min_x - 16
        ∧ (wrapStep vp a).spritePos = (wrapStep vp a).pos)
    ∧ (a.pos.x < vp.rect.min_x - 16 → (wrapStep vp a).pos.x = vp.rect.max_x + 16
        ∧ (wrapStep vp a).spritePos = (wrapStep vp a).pos)
    ∧ (a.pos.y > vp.rect.max_y + 16 → (wrapStep vp a).pos.y = vp.rect.min_y - 16
        ∧ (wrapStep vp a).spritePos = (wrapStep vp a).pos)
    ∧ (a.pos.y < vp.rect.min_y - 16 → (wrapStep vp a).pos.y = vp.rect.max_y + 16
        ∧ (wrapStep vp a).spritePos = (wrapStep vp a).pos)
    ∧ (vp.rect.min_x - 16 ≤ a.pos.x → a.pos.x ≤ vp.rect.max_x + 16 →
        (wrapStep vp a).pos.x = a.pos.x)
    ∧ (vp.rect.min_y - 16 ≤ a.pos.y → a.pos.y ≤ vp.rect.max_y + 16 →
        (wrapStep vp a).pos.y = a.pos.y)
    ∧ (vp.rect.min_x - 16 ≤ a.pos.x → a.pos.x ≤ vp.rect.max_x + 16 →
        vp.rect.min_y - 16 ≤ a.pos.y → a.pos.y ≤ vp.rect.max_y + 16 →
        wrapStep vp a = a)
    ∧ ∀ w : List Agent, screen_wrap vp w = w.map (wrapStep vp) := by
  refine ⟨?_, ?_, ?_, ?_, ?_, ?_, ?_, fun w => rfl⟩
  · intro h
    obtain ⟨hx, hs⟩ := wrapX_high vp a hsx h
    rw [wrapStep_decompose]
    exact ⟨by rw [wrapY_pos_x, hx], wrapY_sprite_sync vp _ hs⟩
  · intro h
    obtain ⟨hx, hs⟩ := wrapX_low vp a h
    rw [wrapStep_decompose]
    exact ⟨by rw [wrapY_pos_x, hx], wrapY_sprite_sync vp _ hs⟩
  · intro h
    rw [wrapStep_decompose]
    obtain ⟨hy, hs⟩ := wrapY_high vp (wrapX vp a) hsy (by rw [wrapX_pos_y]; exact h)
    exact ⟨hy, hs⟩
  · intro h
    rw [wrapStep_decompose]
    obtain ⟨hy, hs⟩ := wrapY_low vp (wrapX vp a) (by rw [wrapX_pos_y]; exact h)
    exact ⟨hy, hs⟩
  · intro h1 h2
    rw [wrapStep_decompose, wrapX_id vp a h1 h2, wrapY_pos_x]
  · intro h1 h2
    rw [wrapStep_decompose]
    have := wrapY_id vp (wrapX vp a) (by rw [wrapX_pos_y]; exact h1)
      (by rw [wrapX_pos_y]; exact h2)
    rw [this, wrapX_pos_y]
  · intro h1 h2 h3 h4
    rw [wrapStep_decompose, wrapX_id vp a h1 h2, wrapY_id vp a h3 h4]

/-- C7 witness: the wrap evaluated on the sample viewport, with one agent
past each bound and one inside the bounds. -/
theorem screen_wrap_spec_witness :
    ((wrapStep testViewport (mkAgent ⟨150, 0⟩ ⟨0, 0⟩)).pos.x
        = testViewport.rect.min_x - 16)
    ∧ ((wrapStep testViewport (mkAgent ⟨-150, 0⟩ ⟨0, 0⟩)).pos.x
        = testViewport.rect.max_x + 16)
    ∧ ((wrapStep testViewport (mkAgent ⟨0, 150⟩ ⟨0, 0⟩)).pos.y
        = testViewport.rect.min_y - 16)
    ∧ ((wrapStep testViewport (mkAgent ⟨0, -150⟩ ⟨0, 0⟩)).pos.y
        = testViewport.rect.max_y + 16)
    ∧ wrapStep testViewport (mkAgent ⟨0, 0⟩ ⟨0, 0⟩) = mkAgent ⟨0, 0⟩ ⟨0, 0⟩ := by
  have hsx : testViewport.rect.min_x - 16 ≤ testViewport.rect.max_x + 16 := by
    norm_num [testViewport, Rect2.min_x, Rect2.max_x]
  have hsy : testViewport.rect.min_y - 16 ≤ testViewport.rect.max_y + 16 := by
    norm_num [testViewport, Rect2.min_y, Rect2.max_y]
  refine ⟨((screen_wrap_spec testViewport (mkAgent ⟨150, 0⟩ ⟨0, 0⟩) hsx hsy).1
      (by norm_num [testViewport, Rect2.max_x, mkAgent])).1,
    ((screen_wrap_spec testViewport (mkAgent ⟨-150, 0⟩ ⟨0, 0⟩) hsx hsy).2.1
      (by norm_num [testViewport, Rect2.min_x, mkAgent])).1,
    ((screen_wrap_spec testViewport (mkAgent ⟨0, 150⟩ ⟨0, 0⟩) hsx hsy).2.2.1
      (by norm_num [testViewport, Rect2.max_y, mkAgent])).1,
    ((screen_wrap_spec testViewport (mkAgent ⟨0, -150⟩ ⟨0, 0⟩) hsx hsy).2.2.2.1
      (by norm_num [testViewport, Rect2.min_y, mkAgent])).1,
    (screen_wrap_spec testViewport (mkAgent ⟨0, 0⟩ ⟨0, 0⟩) hsx hsy).2.2.2.2.2.2.1
      (by norm_num [testViewport, Rect2.min_x, mkAgent])
      (by norm_num [testViewport, Rect2.max_x, mkAgent])
      (by norm_num [testViewport, Rect2.min_y, mkAgent])
      (by norm_num [testViewport, Rect2.max_y, mkAgent])⟩

/-- C10: each force pass leaves position, velocity and acceleration of every
agent unchanged and writes only its own force slot; each pass is a map of its
per-agent step over the snapshot of the full agent set. -/
theorem force_pass_frame :
    (∀ (ps : List Vector2) (a : Agent),
      (cohesionStep ps a).pos = a.pos ∧ (cohesionStep ps a).vel = a.vel
        ∧ (cohesionStep ps a).acc = a.acc
        ∧ (cohesionStep ps a).forces.separation = a.forces.separation
        ∧ (cohesionStep ps a).forces.alignment = a.forces.alignment)
    ∧ (∀ (ps : List Vector2) (a : Agent),
      (separationStep ps a).pos = a.pos ∧ (separationStep ps a).vel = a.vel
        ∧ (separationStep ps a).acc = a.acc
        ∧ (separationStep ps a).forces.cohesion = a.forces.cohesion
        ∧ (separationStep ps a).forces.alignment = a.forces.alignment)
    ∧ (∀ (ps : List (Vector2 × Vector2)) (a : Agent),
      (alignmentStep ps a).pos = a.pos ∧ (alignmentStep ps a).vel = a.vel
        ∧ (alignmentStep ps a).acc = a.acc
        ∧ (alignmentStep ps a).forces.cohesion = a.forces.cohesion
        ∧ (alignmentStep ps a).forces.separation = a.forces.separation)
    ∧ (∀ w : List Agent, cohesion w = w.map (cohesionStep (w.map Agent.pos)))
    ∧ (∀ w : List Agent, separation w = w.map (separationStep (w.map Agent.pos)))
    ∧ ∀ w : List Agent, alignment w = w.map (alignmentStep (w.map fun a => (a.pos, a.vel))) := by
  refine ⟨fun ps a => ?_, fun ps a => ?_, fun ps a => ?_, fun w => rfl, fun w => rfl,
    fun w => rfl⟩ <;> simp

end

end Boids
